import Mathlib

/-!
Verification of the kardex-agrosystem ledger core.

Shallow embedding of the aggregation, classification, windowed-statistics and
import-reconciliation logic of the repository:

* `src/components/InventoryList.tsx` — the `inventory` useMemo fold
  (per-code entries/exits/balance/contagens), `criticalCount`,
  `getStatusBadge`.
* `src/App.tsx` — the `stats` useMemo (stockByCode fold, criticalItems,
  windowed movement counts) and `criticalItemsList`.
* `src/constants/categories.ts` — `operationAffectsStock`.
* `src/services/excel.ts` — `importFromExcel` row reconciliation and the
  `downloadTemplate` example row.

Modelling conventions:

* JavaScript numbers carried by records (quantities, thresholds) are `Int`.
* Calendar dates and creation timestamps are `Int` millisecond values: the
  source compares ISO `YYYY-MM-DD` strings lexicographically, which agrees
  with comparing their `getTime()` values, and `new Date(d).getTime()` on a
  stored date string is the stored value itself in this encoding.
* `undefined`-able fields are `Option`; JavaScript truthiness of a numeric
  field is `≠ 0` on `some` and false on `none`.
* The JS object used as a map is an association list with keys in insertion
  order, matching JS string-key enumeration order; `map[k] = v` on an
  existing key is an in-place update, a new key is appended.
-/

/-- `type` field of a Transaction: `'ENTRADA' | 'SAIDA'`. -/
inductive MovementType where
  | ENTRADA
  | SAIDA
deriving DecidableEq, Repr

/-- The `Transaction` record of `src/types` as used by the aggregation core.
`category_id = some 2` encodes a Contagem (COUNT) record; `none` or `some 1`
a Movimentação. `timestamp` is `createdAt` in ms; `date` is the user-assigned
calendar date in the millisecond encoding described above. -/
structure Transaction where
  id : String := ""
  date : Int := 0
  code : String := ""
  name : String := ""
  type : MovementType := .ENTRADA
  quantity : Int := 0
  warehouse : String := ""
  address : String := ""
  responsible : String := ""
  category_id : Option Int := none
  min_stock : Option Int := none
  timestamp : Int := 0
deriving DecidableEq, Repr

/-- `src/constants/categories.ts`: `!categoryId || categoryId !== 2`. -/
def operationAffectsStock (categoryId : Option Int) : Bool :=
  match categoryId with
  | none => true
  | some c => c != 2

/-- JS truthiness of an optional numeric field (`if (t.min_stock) ...`). -/
def truthyNum (o : Option Int) : Bool :=
  match o with
  | none => false
  | some q => q != 0

/-- `t.min_stock || 0`. -/
def orZero (o : Option Int) : Int := o.getD 0

/-- `t.min_stock && t.min_stock > 0` (App.tsx sticky-threshold guard). -/
def minStockPositive (o : Option Int) : Bool :=
  match o with
  | none => false
  | some q => decide (0 < q)

/-! ### The JS object as an association list -/

/-- `map[c]` lookup on an insertion-ordered string-keyed object. -/
def lookupCode {α : Type} (c : String) : List (String × α) → Option α
  | [] => none
  | p :: ps => if p.1 = c then some p.2 else lookupCode c ps

/-- In-place update of the entry stored under key `c`. -/
def updateCode {α : Type} (c : String) (f : α → α) : List (String × α) → List (String × α)
  | [] => []
  | p :: ps => if p.1 = c then (p.1, f p.2) :: updateCode c f ps else p :: updateCode c f ps

/-- The `forEach` body pattern shared by both folds: create the entry under
`key` with `init` when absent (appended, as JS adds a fresh string key last),
then mutate it with `f`. -/
def stepWith {α : Type} (key : String) (init : α) (f : α → α)
    (m : List (String × α)) : List (String × α) :=
  match lookupCode key m with
  | some _ => updateCode key f m
  | none => updateCode key f (m ++ [(key, init)])

/-- Keys of the object, in insertion order. -/
def keysOf {α : Type} (m : List (String × α)) : List String := m.map (·.1)

/-! ### `InventoryList.tsx` aggregation (`inventory` useMemo) -/

/-- One aggregate entry of the `inventory` map in `InventoryList.tsx`.
`lastContagem` is `(quantity, date)`. -/
structure InvEntry where
  code : String
  name : String
  entries : Int
  exits : Int
  balance : Int
  lastDate : Int
  min_stock : Int
  contagens : Nat
  lastContagem : Option (Int × Int)
deriving DecidableEq, Repr

/-- Entry created on first sight of a code (`InventoryList.tsx` lines 34-45). -/
def initEntry (t : Transaction) : InvEntry :=
  { code := t.code
    name := t.name
    entries := 0
    exits := 0
    balance := 0
    lastDate := t.date
    min_stock := orZero t.min_stock
    contagens := 0
    lastContagem := none }

/-- The mutation applied to the (now present) entry for `t.code`
(`InventoryList.tsx` lines 47-72): recency update of display fields, then
either the Contagem branch or the balance-affecting branch. -/
def applyTx (t : Transaction) (e : InvEntry) : InvEntry :=
  let e1 :=
    if e.lastDate < t.timestamp then
      { e with
        name := t.name
        lastDate := t.date
        min_stock := if truthyNum t.min_stock then orZero t.min_stock else e.min_stock }
    else e
  if t.category_id = some 2 then
    { e1 with
      contagens := e1.contagens + 1
      lastContagem :=
        match e1.lastContagem with
        | none => some (t.quantity, t.date)
        | some lc => if lc.2 < t.timestamp then some (t.quantity, t.date) else some lc }
  else
    match t.type with
    | .ENTRADA => { e1 with entries := e1.entries + t.quantity, balance := e1.balance + t.quantity }
    | .SAIDA => { e1 with exits := e1.exits + t.quantity, balance := e1.balance - t.quantity }

/-- One `forEach` iteration of the `inventory` fold. -/
def invStep (m : List (String × InvEntry)) (t : Transaction) : List (String × InvEntry) :=
  stepWith t.code (initEntry t) (applyTx t) m

/-- The `inventory` aggregation over the transaction list (the final
`Object.values(map).sort` only reorders entries for display and is applied
separately where a claim needs it). -/
def inventoryAgg (l : List Transaction) : List (String × InvEntry) :=
  l.foldl invStep []

/-- `getStatusBadge` of `InventoryList.tsx` / `StockBalanceList.tsx`,
with the badge text abstracted to a status constant. -/
inductive Status where
  | NEGATIVE
  | CRITICAL
  | OK
deriving DecidableEq, Repr

/-- `InventoryList.tsx` lines 103-111 (and the structurally identical
`StockBalanceList.tsx` lines 89-93): Negativo before Crítico, else OK. -/
def getStatusBadge (balance min_stock : Int) : Status :=
  if balance < 0 then .NEGATIVE
  else if 0 < min_stock ∧ balance ≤ min_stock then .CRITICAL
  else .OK

/-- `criticalCount` of `InventoryList.tsx` lines 79-83 (the display sort of
`inventory` does not change the count, so it is taken over the fold output). -/
def criticalCount (l : List Transaction) : Nat :=
  ((inventoryAgg l).map (·.2)).countP
    (fun e => decide (e.balance < 0) || (decide (0 < e.min_stock) && decide (e.balance ≤ e.min_stock)))

/-! ### `App.tsx` dashboard statistics (`stats` useMemo) -/

/-- One `stockByCode` entry in `App.tsx`. -/
structure StockEntry where
  code : String
  name : String
  balance : Int
  min_stock : Int
deriving DecidableEq, Repr

/-- `stockByCode` entry creation (`App.tsx` line 152). -/
def initStock (t : Transaction) : StockEntry :=
  { code := t.code, name := t.name, balance := 0, min_stock := orZero t.min_stock }

/-- `App.tsx` lines 155-166: the balance update gated by `affectsStock`, then
the positive-min_stock overwrite. -/
def applyStock (t : Transaction) (e : StockEntry) : StockEntry :=
  let e1 :=
    if operationAffectsStock t.category_id then
      match t.type with
      | .ENTRADA => { e with balance := e.balance + t.quantity }
      | .SAIDA => { e with balance := e.balance - t.quantity }
    else e
  if minStockPositive t.min_stock then { e1 with min_stock := orZero t.min_stock } else e1

/-- One `forEach` iteration of the `stockByCode` fold. -/
def stockStep (m : List (String × StockEntry)) (t : Transaction) : List (String × StockEntry) :=
  stepWith t.code (initStock t) (applyStock t) m

/-- `stockByCode` over the full (never windowed) transaction list. -/
def stockByCode (l : List Transaction) : List (String × StockEntry) :=
  l.foldl stockStep []

/-- `DashboardStats` as assembled by the `stats` useMemo. -/
structure DashboardStats where
  totalStockCount : Nat
  totalTransactions : Nat
  entriesToday : Nat
  exitsToday : Nat
  criticalItems : Nat
deriving DecidableEq, Repr

/-- The `stats` useMemo of `App.tsx` lines 124-188. `dateFilter` is `none`
for `'ALL'` and `some thr` for a day filter, where `thr` is the computed
threshold date (today minus the selected number of days); the source compares
ISO date strings with `>=`, here `≤` on the date encoding. -/
def stats (transactions : List Transaction) (dateFilter : Option Int) : DashboardStats :=
  let filteredTransactions :=
    match dateFilter with
    | none => transactions
    | some thr => transactions.filter (fun t => thr ≤ t.date)
  let vals : List StockEntry := (stockByCode transactions).map (·.2)
  { totalStockCount := vals.countP (fun e => decide (0 < e.balance))
    totalTransactions := filteredTransactions.length
    entriesToday := filteredTransactions.countP
      (fun t => decide (t.type = MovementType.ENTRADA) && operationAffectsStock t.category_id)
    exitsToday := filteredTransactions.countP
      (fun t => decide (t.type = MovementType.SAIDA) && operationAffectsStock t.category_id)
    criticalItems := vals.countP (fun e => decide (0 < e.min_stock) && decide (e.balance ≤ e.min_stock)) }

/-- `criticalItemsList` of `App.tsx` lines 191-217 (same fold over all
transactions, filtered; the display sort by code is order only). -/
def criticalItemsList (l : List Transaction) : List StockEntry :=
  ((stockByCode l).map (·.2)).filter
    (fun e => decide (0 < e.min_stock) && decide (e.balance ≤ e.min_stock))

/-! ### Aggregate accessors (proof-side views of the maps) -/

def getEntries (m : List (String × InvEntry)) (c : String) : Int :=
  ((lookupCode c m).map (·.entries)).getD 0

def getExits (m : List (String × InvEntry)) (c : String) : Int :=
  ((lookupCode c m).map (·.exits)).getD 0

def getBalance (m : List (String × InvEntry)) (c : String) : Int :=
  ((lookupCode c m).map (·.balance)).getD 0

def getContagens (m : List (String × InvEntry)) (c : String) : Nat :=
  ((lookupCode c m).map (·.contagens)).getD 0

def getName (m : List (String × InvEntry)) (c : String) : Option String :=
  (lookupCode c m).map (·.name)

def getLastContagem (m : List (String × InvEntry)) (c : String) : Option (Int × Int) :=
  ((lookupCode c m).map (·.lastContagem)).getD none

/-! ### Import reconciliation (`src/services/excel.ts`, `importFromExcel`) -/

/-- A spreadsheet cell as seen after `sheet_to_json`: a string or a number. -/
inductive Cell where
  | str (s : String)
  | num (v : Int)
deriving DecidableEq, Repr

/-- JS truthiness of a cell (`'' `and `0` are falsy). -/
def Cell.truthy : Cell → Bool
  | .str s => s != ""
  | .num v => v != 0

/-- `String(x)` on a cell. -/
def Cell.asString : Cell → String
  | .str s => s
  | .num v => toString v

/-- A raw imported row: column header to cell value. -/
def Row : Type := List (String × Cell)

/-- The `row['K1'] || row['K2'] || ...` probing chain: the first key whose
cell is present and truthy; `none` when every candidate is absent or falsy
(in which case the JS chain yields a falsy value and any `|| default`
applies, and a bare use fails the `!code || !name` guard). -/
def probe (row : Row) : List String → Option Cell
  | [] => none
  | k :: ks =>
    match lookupCode k row with
    | some c => if c.truthy then some c else probe row ks
    | none => probe row ks

def codeKeys : List String :=
  ["Código", "Codigo", "Code", "SKU", "CÓDIGO", "CODIGO"]

def nameKeys : List String :=
  ["Item", "Nome", "Descrição", "Description", "Name", "ITEM", "NOME"]

def typeKeys : List String := ["Tipo", "Type", "TIPO"]

def qtyKeys : List String :=
  ["Quantidade", "Qtd", "Quantity", "Quant", "QUANTIDADE", "QTD"]

def warehouseKeys : List String :=
  ["Armazém", "Armazem", "Warehouse", "Local", "ARMAZÉM", "ARMAZEM"]

def dateKeys : List String := ["Data", "Date", "DATA"]

def idKeys : List String := ["ID", "Id", "id"]

def addressKeys : List String := ["Endereço", "Endereco", "Address", "ENDEREÇO"]

def responsibleKeys : List String :=
  ["Responsável", "Responsavel", "Responsible", "RESPONSÁVEL"]

/-- `.toUpperCase()` as the importer applies it, mapped over the characters
(ASCII upcasing via `Char.toUpper`). -/
def jsToUpper (s : String) : String := String.mk (s.toList.map Char.toUpper)

/-- `needle` occurs as a substring of `hay` (used for `t.includes('SAI')`…). -/
def containsSub (hay needle : String) : Bool :=
  decide (needle.toList <:+: hay.toList)

/-- Type normalization (`excel.ts` lines 129-133): uppercase the raw type and
map anything containing an exit token to `SAIDA`, else `ENTRADA`. -/
def normalizeType (typeRaw : Cell) : MovementType :=
  let t := jsToUpper typeRaw.asString
  if containsSub t "SAI" || containsSub t "OUT" || containsSub t "EXIT" || containsSub t "SAÍ"
  then .SAIDA else .ENTRADA

/-- `Number(x)` on the cells this importer meets, with `none` for `NaN`:
a numeric cell is itself; a string parses when it is an optional minus sign
followed by decimal digits, and is `NaN` otherwise. -/
def digitsToNat : List Char → Option Nat
  | [] => none
  | cs => if cs.all (·.isDigit) then some (cs.foldl (fun a c => a * 10 + (c.toNat - 48)) 0)
          else none

def strToInt (s : String) : Option Int :=
  match s.toList with
  | '-' :: rest => (digitsToNat rest).map (fun n => -(n : Int))
  | cs => (digitsToNat cs).map (fun n => (n : Int))

def jsNumber : Cell → Option Int
  | .num v => some v
  | .str s => strToInt s

/-- `Math.abs`. -/
def jsAbs (v : Int) : Int := if v < 0 then -v else v

/-- `Math.abs(Number(qty)) || 0` (`excel.ts` line 173): absolute value of a
numeric quantity; `0` when the coercion yields `NaN` (`NaN || 0` is `0`). -/
def coerceQty (qty : Cell) : Int :=
  match jsNumber qty with
  | some v => jsAbs v
  | none => 0

/-- Excel date resolution (`excel.ts` lines 136-149): a serial number above
20000 converts through the 1970 epoch offset (25567 + 1 days, ms scale);
a parseable date string (modelled by the `parse` collaborator standing for
`new Date(s).getTime()`) is used as-is; everything else falls back to today. -/
def resolveDate (parse : String → Option Int) (today : Int) (dateCell : Option Cell) : Int :=
  match dateCell with
  | some (.num d) => if 20000 < d then (d - (25567 + 1)) * 86400 * 1000 else today
  | some (.str s) => (parse s).getD today
  | none => today

/-- ID resolution (`excel.ts` line 168): keep a provided id unless it is the
template's blank-placeholder sentinel; `newId` stands for the generated
`crypto.randomUUID()`. A probed id is truthy, so the `id !== ''` conjunct
of the guard is already satisfied. -/
def resolveId (newId : String) (idCell : Option Cell) : String :=
  match idCell with
  | some c => if c.asString = "DEIXE_EM_BRANCO_PARA_NOVO" then newId else c.asString
  | none => newId

/-- One row of `importFromExcel` (`excel.ts` lines 113-180): resolve the
synonym chains, reject on missing code or name and on the template's
`SKU-001` sentinel, otherwise emit the normalized `Transaction`.
`now` stands for `Date.now()`. -/
def processRow (parse : String → Option Int) (today : Int) (newId : String) (now : Int)
    (row : Row) : Option Transaction :=
  let code := probe row codeKeys
  let name := probe row nameKeys
  let typeRaw := (probe row typeKeys).getD (.str "ENTRADA")
  let qty := (probe row qtyKeys).getD (.num 0)
  let warehouse := (probe row warehouseKeys).getD (.str "Geral")
  let dateCell := probe row dateKeys
  let idCell := probe row idKeys
  match code, name with
  | some c, some n =>
    if jsToUpper c.asString = "SKU-001" then none
    else some
      { id := resolveId newId idCell
        date := resolveDate parse today dateCell
        code := (jsToUpper c.asString).trim
        name := n.asString.trim
        type := normalizeType typeRaw
        quantity := coerceQty qty
        warehouse := warehouse.asString.trim
        address := (((probe row addressKeys).getD (.str "")).asString.trim : String)
        responsible := (((probe row responsibleKeys).getD (.str "")).asString.trim : String)
        category_id := none
        min_stock := none
        timestamp := now }
  | _, _ => none

/-- `importFromExcel` over the parsed rows: map each row and keep the
non-null results (`.map(...).filter(t => t !== null)`). -/
def importRows (parse : String → Option Int) (today : Int) (newId : String) (now : Int)
    (rows : List Row) : List Transaction :=
  rows.filterMap (processRow parse today newId now)

/-- The example row written by `downloadTemplate` (`excel.ts` lines 20-32). -/
def templateRow : Row :=
  [("ID", .str "DEIXE_EM_BRANCO_PARA_NOVO"),
   ("Data", .str "2023-10-25"),
   ("Código", .str "SKU-001"),
   ("Item", .str "Exemplo de Item"),
   ("Tipo", .str "ENTRADA"),
   ("Quantidade", .num 100),
   ("Armazém", .str "Geral"),
   ("Endereço", .str "A1"),
   ("Responsável", .str "João")]

/-! ### Spec-side comparison definitions

These two definitions follow the words of spec claims (not the source); they
exist only to be compared against the source-derived definitions above. -/

/-- The count claim C2 asserts for the dashboard statistic: aggregate entries
classified `NEGATIVE` or `CRITICAL`, i.e. `balance < 0` or
`minStock > 0 ∧ balance ≤ minStock`. -/
def claimedCriticalItems (l : List Transaction) : Nat :=
  ((stockByCode l).map (·.2)).countP
    (fun e => decide (e.balance < 0) || (decide (0 < e.min_stock) && decide (e.balance ≤ e.min_stock)))

/-- The windowed entry-movement count claim C7 asserts: entry movements whose
`date` lies in the closed interval `[today - window, today]`. -/
def claimedWindowEntries (l : List Transaction) (today window : Int) : Nat :=
  l.countP (fun t =>
    decide (today - window ≤ t.date) && decide (t.date ≤ today) &&
    (decide (t.type = MovementType.ENTRADA) && operationAffectsStock t.category_id))

/-! ### Concrete records used by counterexamples, scenarios and witnesses -/

/-- A `SAIDA` record with no threshold: balance goes negative, `min_stock`
stays 0. -/
def txNegNoMin : Transaction :=
  { code := "A", name := "P", type := .SAIDA, quantity := 5, timestamp := 1 }

/-- C4 scenario records: `[IN 100, OUT 30, COUNT 60]` on code `X101`. -/
def c4In : Transaction :=
  { code := "X101", name := "x", type := .ENTRADA, quantity := 100, timestamp := 1 }

def c4Out : Transaction :=
  { code := "X101", name := "x", type := .SAIDA, quantity := 30, timestamp := 2 }

def c4Count : Transaction :=
  { code := "X101", name := "x", type := .ENTRADA, quantity := 60,
    category_id := some 2, timestamp := 3 }

/-- C4 counterexample record: a COUNT record for code `A` carrying a new
display name. -/
def c4CountRename : Transaction :=
  { code := "A", name := "renamed", type := .ENTRADA, quantity := 60,
    category_id := some 2, timestamp := 5 }

/-- C5 scenario records: `minStock 5` then a record lacking `minStock`. -/
def c5First : Transaction :=
  { code := "A", name := "a", quantity := 1, min_stock := some 5, timestamp := 1 }

def c5Second : Transaction :=
  { code := "A", name := "a", quantity := 1, min_stock := none, timestamp := 2 }

/-- C6 failing input: both records dated to the same calendar day
(midnight 1700000000000 ms); `c6Early` was created earlier in that day than
`c6Late`. -/
def c6Early : Transaction :=
  { code := "A", name := "N1", quantity := 1,
    date := 1700000000000, timestamp := 1700000001000 }

def c6Late : Transaction :=
  { code := "A", name := "N2", quantity := 1,
    date := 1700000000000, timestamp := 1700000002000 }

/-- C7 counterexample record: an entry movement dated in the future
(`date = 8` with today = 0), outside `[today - 7, today]`. -/
def c7Future : Transaction :=
  { code := "F", name := "f", type := .ENTRADA, quantity := 1, date := 8, timestamp := 1 }

/-- C3 witness records. -/
def c3WitIn : Transaction :=
  { code := "A", name := "a", type := .ENTRADA, quantity := 10, timestamp := 1 }

def c3WitOut : Transaction :=
  { code := "A", name := "a", type := .SAIDA, quantity := 3, timestamp := 2 }

/-- C10 witness record: a code seen only in a COUNT record. -/
def c10CountOnly : Transaction :=
  { code := "C1", name := "c", type := .ENTRADA, quantity := 60,
    category_id := some 2, timestamp := 1 }

/-- C5 witness state: an entry for code `A` with threshold already 5. -/
def c5Entry : InvEntry :=
  { code := "A", name := "a", entries := 1, exits := 0, balance := 1,
    lastDate := 0, min_stock := 5, contagens := 0, lastContagem := none }

/-- C8 witness row: the template's example code in lower case. -/
def rowLower : Row :=
  [("Código", .str "sku-001"), ("Item", .str "Exemplo"), ("Quantidade", .num 100)]

/-- C9 witness row: a non-numeric quantity cell. -/
def rowBadQty : Row :=
  [("Código", .str "a1"), ("Item", .str "X"), ("Quantidade", .str "abc")]

/-! ### Association-list lemmas -/

theorem lookupCode_append {α : Type} (c k : String) (e : α) (m : List (String × α)) :
    lookupCode c (m ++ [(k, e)]) =
      match lookupCode c m with
      | some v => some v
      | none => if k = c then some e else none := by
  induction m with
  | nil => simp [lookupCode]
  | cons p ps ih =>
    by_cases h : p.1 = c
    · simp [lookupCode, h]
    · simp [lookupCode, h, ih]

theorem lookupCode_updateCode {α : Type} (c k : String) (f : α → α) (m : List (String × α)) :
    lookupCode c (updateCode k f m) =
      if k = c then (lookupCode c m).map f else lookupCode c m := by
  induction m with
  | nil => simp [lookupCode, updateCode]
  | cons p ps ih =>
    by_cases hk : p.1 = k
    · by_cases hc : p.1 = c
      · have hkc : k = c := hk.symm.trans hc
        simp [updateCode, lookupCode, hk, hc, hkc]
      · have hkc : ¬k = c := fun h => hc (hk.trans h)
        simp [updateCode, lookupCode, hk, hc, hkc, ih]
    · by_cases hc : p.1 = c
      · have hkc : ¬k = c := fun h => hk (hc.trans h.symm)
        have hck : ¬c = k := fun h => hkc h.symm
        simp [updateCode, lookupCode, hk, hc, hkc, hck]
      · simp [updateCode, lookupCode, hk, hc, ih]

theorem lookupCode_stepWith {α : Type} (c k : String) (init : α) (f : α → α)
    (m : List (String × α)) :
    lookupCode c (stepWith k init f m) =
      if k = c then some (f ((lookupCode c m).getD init)) else lookupCode c m := by
  unfold stepWith
  cases h : lookupCode k m with
  | some v =>
    rw [lookupCode_updateCode]
    by_cases hkc : k = c
    · subst hkc; simp [h]
    · simp [hkc]
  | none =>
    rw [lookupCode_updateCode, lookupCode_append]
    by_cases hkc : k = c
    · subst hkc; simp [h]
    · simp only [hkc, if_false, if_neg hkc]
      cases lookupCode c m <;> rfl

theorem keysOf_updateCode {α : Type} (k : String) (f : α → α) (m : List (String × α)) :
    keysOf (updateCode k f m) = keysOf m := by
  induction m with
  | nil => rfl
  | cons p ps ih =>
    by_cases h : p.1 = k <;> simp [keysOf, updateCode, h] <;> simpa [keysOf] using ih

theorem keysOf_stepWith {α : Type} (k : String) (init : α) (f : α → α)
    (m : List (String × α)) :
    keysOf (stepWith k init f m) =
      match lookupCode k m with
      | some _ => keysOf m
      | none => keysOf m ++ [k] := by
  unfold stepWith
  cases h : lookupCode k m with
  | some v => rw [keysOf_updateCode]
  | none => rw [keysOf_updateCode]; simp [keysOf]

theorem lookupCode_isSome_iff {α : Type} (c : String) (m : List (String × α)) :
    (lookupCode c m).isSome ↔ c ∈ keysOf m := by
  induction m with
  | nil => simp [lookupCode, keysOf]
  | cons p ps ih =>
    by_cases h : p.1 = c
    · simp [lookupCode, keysOf, h]
    · simp [lookupCode, keysOf, h, ih, Ne.symm h]

/-! ### Per-record contributions of the `inventory` fold -/

/-- Contribution of one record to `entries` of code `c`. -/
def entriesDelta (t : Transaction) (c : String) : Int :=
  if t.code = c ∧ t.category_id ≠ some 2 ∧ t.type = MovementType.ENTRADA then t.quantity else 0

/-- Contribution of one record to `exits` of code `c`. -/
def exitsDelta (t : Transaction) (c : String) : Int :=
  if t.code = c ∧ t.category_id ≠ some 2 ∧ t.type = MovementType.SAIDA then t.quantity else 0

/-- Contribution of one record to `balance` of code `c`. -/
def balanceDelta (t : Transaction) (c : String) : Int :=
  if t.code = c ∧ t.category_id ≠ some 2 then
    match t.type with
    | .ENTRADA => t.quantity
    | .SAIDA => -t.quantity
  else 0

def entriesOf (l : List Transaction) (c : String) : Int :=
  (l.map (fun t => entriesDelta t c)).sum

def exitsOf (l : List Transaction) (c : String) : Int :=
  (l.map (fun t => exitsDelta t c)).sum

def balanceOf (l : List Transaction) (c : String) : Int :=
  (l.map (fun t => balanceDelta t c)).sum

theorem applyTx_entries (t : Transaction) (e : InvEntry) :
    (applyTx t e).entries =
      e.entries + (if t.category_id ≠ some 2 ∧ t.type = MovementType.ENTRADA then t.quantity else 0) := by
  unfold applyTx
  by_cases hc : t.category_id = some 2
  · by_cases hr : e.lastDate < t.timestamp <;> simp [hc, hr]
  · cases ht : t.type <;> by_cases hr : e.lastDate < t.timestamp <;> simp [hc, ht, hr]

theorem applyTx_exits (t : Transaction) (e : InvEntry) :
    (applyTx t e).exits =
      e.exits + (if t.category_id ≠ some 2 ∧ t.type = MovementType.SAIDA then t.quantity else 0) := by
  unfold applyTx
  by_cases hc : t.category_id = some 2
  · by_cases hr : e.lastDate < t.timestamp <;> simp [hc, hr]
  · cases ht : t.type <;> by_cases hr : e.lastDate < t.timestamp <;> simp [hc, ht, hr]

theorem applyTx_balance (t : Transaction) (e : InvEntry) :
    (applyTx t e).balance =
      e.balance + (if t.category_id ≠ some 2 then
        match t.type with
        | .ENTRADA => t.quantity
        | .SAIDA => -t.quantity
      else 0) := by
  unfold applyTx
  by_cases hc : t.category_id = some 2
  · by_cases hr : e.lastDate < t.timestamp <;> simp [hc, hr]
  · cases ht : t.type <;> by_cases hr : e.lastDate < t.timestamp <;> simp [hc, ht, hr] <;> ring

theorem applyTx_contagens (t : Transaction) (e : InvEntry) :
    (applyTx t e).contagens =
      e.contagens + (if t.category_id = some 2 then 1 else 0) := by
  unfold applyTx
  by_cases hc : t.category_id = some 2
  · by_cases hr : e.lastDate < t.timestamp <;> simp [hc, hr]
  · cases ht : t.type <;> by_cases hr : e.lastDate < t.timestamp <;> simp [hc, ht, hr]

theorem applyTx_min_stock (t : Transaction) (e : InvEntry) :
    (applyTx t e).min_stock =
      if e.lastDate < t.timestamp ∧ truthyNum t.min_stock then orZero t.min_stock
      else e.min_stock := by
  unfold applyTx
  cases ht : t.type <;> by_cases hc : t.category_id = some 2 <;>
    by_cases hr : e.lastDate < t.timestamp <;>
      by_cases hm : truthyNum t.min_stock <;> simp [ht, hc, hr, hm]

theorem applyTx_name (t : Transaction) (e : InvEntry) :
    (applyTx t e).name = if e.lastDate < t.timestamp then t.name else e.name := by
  unfold applyTx
  cases ht : t.type <;> by_cases hc : t.category_id = some 2 <;>
    by_cases hr : e.lastDate < t.timestamp <;> simp [ht, hc, hr]

theorem initEntry_entries (t : Transaction) : (initEntry t).entries = 0 := rfl
theorem initEntry_exits (t : Transaction) : (initEntry t).exits = 0 := rfl
theorem initEntry_balance (t : Transaction) : (initEntry t).balance = 0 := rfl

/-- Effect of one `forEach` iteration on the looked-up entry. -/
theorem lookupCode_invStep (m : List (String × InvEntry)) (t : Transaction) (c : String) :
    lookupCode c (invStep m t) =
      if t.code = c then some (applyTx t ((lookupCode c m).getD (initEntry t)))
      else lookupCode c m := by
  unfold invStep
  exact lookupCode_stepWith c t.code (initEntry t) (applyTx t) m

theorem getEntries_invStep (m : List (String × InvEntry)) (t : Transaction) (c : String) :
    getEntries (invStep m t) c = getEntries m c + entriesDelta t c := by
  unfold getEntries entriesDelta
  rw [lookupCode_invStep]
  by_cases h : t.code = c
  · simp only [h, if_true]
    cases hm : lookupCode c m <;>
      simp [hm, applyTx_entries, initEntry, h]
  · simp [h]

theorem getExits_invStep (m : List (String × InvEntry)) (t : Transaction) (c : String) :
    getExits (invStep m t) c = getExits m c + exitsDelta t c := by
  unfold getExits exitsDelta
  rw [lookupCode_invStep]
  by_cases h : t.code = c
  · simp only [h, if_true]
    cases hm : lookupCode c m <;>
      simp [hm, applyTx_exits, initEntry, h]
  · simp [h]

theorem getBalance_invStep (m : List (String × InvEntry)) (t : Transaction) (c : String) :
    getBalance (invStep m t) c = getBalance m c + balanceDelta t c := by
  unfold getBalance balanceDelta
  rw [lookupCode_invStep]
  by_cases h : t.code = c
  · simp only [h, if_true]
    cases hm : lookupCode c m <;>
      simp [hm, applyTx_balance, initEntry, h]
  · simp [h]

theorem getEntries_foldl (l : List Transaction) (m : List (String × InvEntry)) (c : String) :
    getEntries (l.foldl invStep m) c = getEntries m c + entriesOf l c := by
  induction l generalizing m with
  | nil => simp [entriesOf]
  | cons t l ih =>
    rw [List.foldl_cons, ih, getEntries_invStep]
    simp [entriesOf]
    ring

theorem getExits_foldl (l : List Transaction) (m : List (String × InvEntry)) (c : String) :
    getExits (l.foldl invStep m) c = getExits m c + exitsOf l c := by
  induction l generalizing m with
  | nil => simp [exitsOf]
  | cons t l ih =>
    rw [List.foldl_cons, ih, getExits_invStep]
    simp [exitsOf]
    ring

theorem getBalance_foldl (l : List Transaction) (m : List (String × InvEntry)) (c : String) :
    getBalance (l.foldl invStep m) c = getBalance m c + balanceOf l c := by
  induction l generalizing m with
  | nil => simp [balanceOf]
  | cons t l ih =>
    rw [List.foldl_cons, ih, getBalance_invStep]
    simp [balanceOf]
    ring

theorem getEntries_inventoryAgg (l : List Transaction) (c : String) :
    getEntries (inventoryAgg l) c = entriesOf l c := by
  unfold inventoryAgg
  rw [getEntries_foldl]
  simp [getEntries, lookupCode]

theorem getExits_inventoryAgg (l : List Transaction) (c : String) :
    getExits (inventoryAgg l) c = exitsOf l c := by
  unfold inventoryAgg
  rw [getExits_foldl]
  simp [getExits, lookupCode]

theorem getBalance_inventoryAgg (l : List Transaction) (c : String) :
    getBalance (inventoryAgg l) c = balanceOf l c := by
  unfold inventoryAgg
  rw [getBalance_foldl]
  simp [getBalance, lookupCode]

theorem balanceDelta_eq (t : Transaction) (c : String) :
    balanceDelta t c = entriesDelta t c - exitsDelta t c := by
  unfold balanceDelta entriesDelta exitsDelta
  by_cases h : t.code = c ∧ t.category_id ≠ some 2
  · cases ht : t.type <;> simp [h, ht]
  · have h1 : ¬(t.code = c ∧ ¬t.category_id = some 2 ∧ t.type = MovementType.ENTRADA) :=
      fun hh => h ⟨hh.1, hh.2.1⟩
    have h2 : ¬(t.code = c ∧ ¬t.category_id = some 2 ∧ t.type = MovementType.SAIDA) :=
      fun hh => h ⟨hh.1, hh.2.1⟩
    simp [h, h1, h2]

theorem balanceOf_eq (l : List Transaction) (c : String) :
    balanceOf l c = entriesOf l c - exitsOf l c := by
  induction l with
  | nil => simp [balanceOf, entriesOf, exitsOf]
  | cons t l ih =>
    simp only [balanceOf, entriesOf, exitsOf, List.map_cons, List.sum_cons] at *
    rw [balanceDelta_eq, ih]
    ring

/-! ### Key-set lemmas for the `inventory` fold -/

theorem keysOf_invStep (m : List (String × InvEntry)) (t : Transaction) :
    keysOf (invStep m t) =
      match lookupCode t.code m with
      | some _ => keysOf m
      | none => keysOf m ++ [t.code] := by
  cases h : lookupCode t.code m <;>
    simp [invStep, keysOf_stepWith, h]

theorem mem_keysOf_foldl (l : List Transaction) (m : List (String × InvEntry)) (c : String) :
    c ∈ keysOf (l.foldl invStep m) ↔ c ∈ keysOf m ∨ c ∈ l.map (·.code) := by
  induction l generalizing m with
  | nil => simp
  | cons t l ih =>
    rw [List.foldl_cons, ih, keysOf_invStep]
    cases h : lookupCode t.code m with
    | some v =>
      have hm : t.code ∈ keysOf m := by
        rw [← lookupCode_isSome_iff, h]; rfl
      simp only [List.map_cons, List.mem_cons]
      constructor
      · rintro (h1 | h1)
        · exact Or.inl h1
        · exact Or.inr (Or.inr h1)
      · rintro (h1 | h1 | h1)
        · exact Or.inl h1
        · exact Or.inl (h1 ▸ hm)
        · exact Or.inr h1
    | none =>
      simp only [List.map_cons, List.mem_cons, List.mem_append, List.mem_singleton]
      tauto

theorem nodup_keysOf_foldl (l : List Transaction) (m : List (String × InvEntry))
    (hm : (keysOf m).Nodup) : (keysOf (l.foldl invStep m)).Nodup := by
  induction l generalizing m with
  | nil => exact hm
  | cons t l ih =>
    rw [List.foldl_cons]
    apply ih
    rw [keysOf_invStep]
    cases h : lookupCode t.code m with
    | some v => exact hm
    | none =>
      have hnot : t.code ∉ keysOf m := by
        rw [← lookupCode_isSome_iff, h]; simp
      simp [List.nodup_append, hm, hnot]

/-! ### `stockByCode` lemmas (App.tsx fold) -/

theorem lookupCode_stockStep (m : List (String × StockEntry)) (t : Transaction) (c : String) :
    lookupCode c (stockStep m t) =
      if t.code = c then some (applyStock t ((lookupCode c m).getD (initStock t)))
      else lookupCode c m := by
  unfold stockStep
  exact lookupCode_stepWith c t.code (initStock t) (applyStock t) m

theorem applyStock_min_stock (t : Transaction) (e : StockEntry) :
    (applyStock t e).min_stock =
      if minStockPositive t.min_stock then orZero t.min_stock else e.min_stock := by
  unfold applyStock
  cases ht : t.type <;> by_cases ha : operationAffectsStock t.category_id <;>
    by_cases hp : minStockPositive t.min_stock <;> simp [ht, ha, hp]

/-! ### Pointwise classifier characterizations -/

theorem critical_pred_eq (b m : Int) :
    (decide (0 < m) && decide (b ≤ m)) =
      decide (getStatusBadge b m = Status.CRITICAL ∨
        (getStatusBadge b m = Status.NEGATIVE ∧ 0 < m)) := by
  by_cases h1 : b < 0 <;> by_cases h3 : 0 < m <;> by_cases h4 : b ≤ m <;>
    simp [getStatusBadge, h1, h3, h4] <;> omega

theorem notOK_pred_eq (b m : Int) :
    (decide (b < 0) || (decide (0 < m) && decide (b ≤ m))) =
      decide (getStatusBadge b m ≠ Status.OK) := by
  by_cases h1 : b < 0 <;> by_cases h3 : 0 < m <;> by_cases h4 : b ≤ m <;>
    simp [getStatusBadge, h1, h3, h4] <;> omega

/-! ### Claim theorems -/

/-- C1: the status classification is exhaustive and mutually exclusive and
evaluates NEGATIVE before CRITICAL: an aggregate entry with `balance < 0` is
`NEGATIVE` regardless of `minStock`; one with `balance ≥ 0`, `minStock > 0`
and `balance ≤ minStock` is `CRITICAL`; every other entry is `OK`; and the
entry with `balance = -1`, `minStock = 10` classifies `NEGATIVE`. -/
theorem spec_C1_status_classification (balance min_stock : Int) :
    (getStatusBadge balance min_stock = Status.NEGATIVE ↔ balance < 0) ∧
    (getStatusBadge balance min_stock = Status.CRITICAL ↔
      0 ≤ balance ∧ 0 < min_stock ∧ balance ≤ min_stock) ∧
    (getStatusBadge balance min_stock = Status.OK ↔
      0 ≤ balance ∧ ¬(0 < min_stock ∧ balance ≤ min_stock)) ∧
    getStatusBadge (-1) 10 = Status.NEGATIVE := by
  refine ⟨?_, ?_, ?_, by decide⟩ <;>
    (by_cases h1 : balance < 0 <;>
      by_cases h2 : 0 < min_stock ∧ balance ≤ min_stock <;>
        simp [getStatusBadge, h1, h2] <;> omega)

/-- C2, counterexample: a single `SAIDA` record with no threshold leaves a
negative balance with `min_stock = 0`; the dashboard `criticalItems` of
`App.tsx` counts 0 while the claimed NEGATIVE-or-CRITICAL count is 1, so the
dashboard statistic does not equal the claimed count. -/
theorem spec_C2_counterexample :
    (stats [txNegNoMin] none).criticalItems = 0 ∧
    claimedCriticalItems [txNegNoMin] = 1 ∧
    (stats [txNegNoMin] none).criticalItems ≠ claimedCriticalItems [txNegNoMin] := by
  refine ⟨by decide, by decide, by decide⟩

/-- C2, amended: the dashboard `criticalItems` counts exactly the aggregate
entries with `minStock > 0` and `balance ≤ minStock` — equivalently those
classified `CRITICAL`, together with those classified `NEGATIVE` that carry a
positive threshold; a negative-balance item without a threshold is excluded.
The inventory view's `criticalCount` is the statistic that counts every
non-`OK` entry (`NEGATIVE ∪ CRITICAL`). -/
theorem spec_C2_amended (l : List Transaction) (df : Option Int) :
    (stats l df).criticalItems =
      ((stockByCode l).map (·.2)).countP
        (fun e => decide (getStatusBadge e.balance e.min_stock = Status.CRITICAL ∨
          (getStatusBadge e.balance e.min_stock = Status.NEGATIVE ∧ 0 < e.min_stock))) ∧
    criticalCount l =
      ((inventoryAgg l).map (·.2)).countP
        (fun e => decide (getStatusBadge e.balance e.min_stock ≠ Status.OK)) := by
  constructor
  · show ((stockByCode l).map (·.2)).countP _ = _
    congr 1
    funext e
    exact critical_pred_eq e.balance e.min_stock
  · unfold criticalCount
    congr 1
    funext e
    exact notOK_pred_eq e.balance e.min_stock

/-- C3: for every list of movement records and every code, the aggregate
satisfies `balance = totalIn - totalOut` (`entries`/`exits` in the source),
and `balance`, `totalIn` and `totalOut` per code are identical for every
permutation of the input list. -/
theorem spec_C3_balance_identity_perm_invariant :
    (∀ (l : List Transaction) (c : String),
      getBalance (inventoryAgg l) c =
        getEntries (inventoryAgg l) c - getExits (inventoryAgg l) c) ∧
    (∀ (l l' : List Transaction), l.Perm l' → ∀ c : String,
      getBalance (inventoryAgg l) c = getBalance (inventoryAgg l') c ∧
      getEntries (inventoryAgg l) c = getEntries (inventoryAgg l') c ∧
      getExits (inventoryAgg l) c = getExits (inventoryAgg l') c) := by
  constructor
  · intro l c
    rw [getBalance_inventoryAgg, getEntries_inventoryAgg, getExits_inventoryAgg, balanceOf_eq]
  · intro l l' h c
    refine ⟨?_, ?_, ?_⟩
    · rw [getBalance_inventoryAgg, getBalance_inventoryAgg]
      exact (h.map (fun t => balanceDelta t c)).sum_eq
    · rw [getEntries_inventoryAgg, getEntries_inventoryAgg]
      exact (h.map (fun t => entriesDelta t c)).sum_eq
    · rw [getExits_inventoryAgg, getExits_inventoryAgg]
      exact (h.map (fun t => exitsDelta t c)).sum_eq

/-- C3 witness: the permutation clause applied to the concrete two-record
list and its transposition. -/
theorem spec_C3_witness :
    getBalance (inventoryAgg [c3WitIn, c3WitOut]) "A" =
      getBalance (inventoryAgg [c3WitOut, c3WitIn]) "A" ∧
    getBalance (inventoryAgg [c3WitIn, c3WitOut]) "A" = 7 := by
  constructor
  · exact (spec_C3_balance_identity_perm_invariant.2 [c3WitIn, c3WitOut]
      [c3WitOut, c3WitIn] (List.Perm.swap c3WitOut c3WitIn []) "A").1
  · decide

/-- C4, counterexample: a COUNT record is not limited to touching
`countEvents` and `lastCountEvent` — the recency update of
`InventoryList.tsx` runs for every record, so a COUNT record with a fresh
`createdAt` also overwrites the stored display name (here `a` becomes
`renamed`). -/
theorem spec_C4_counterexample :
    c4CountRename.category_id = some 2 ∧
    (lookupCode "A" (invStep [("A", c5Entry)] c4CountRename)).map (·.name) =
      some "renamed" ∧
    c5Entry.name = "a" := by
  refine ⟨rfl, by decide, rfl⟩

/-- C4, amended: processing a COUNT record (`category_id = 2`) leaves
`balance`, `totalIn` (`entries`) and `totalOut` (`exits`) unchanged for every
code and for every quantity value (besides `countEvents` and
`lastCountEvent`, only the display fields updated for every record by the
recency rule may change); and the spec scenario `[IN 100, OUT 30, COUNT 60]`
on one code yields balance 70 with `countEvents = 1` and
`lastCountEvent.quantity = 60`. -/
theorem spec_C4_count_frame :
    (∀ (m : List (String × InvEntry)) (t : Transaction),
      t.category_id = some 2 → ∀ c : String,
        getEntries (invStep m t) c = getEntries m c ∧
        getExits (invStep m t) c = getExits m c ∧
        getBalance (invStep m t) c = getBalance m c) ∧
    (getBalance (inventoryAgg [c4In, c4Out, c4Count]) "X101" = 70 ∧
     getContagens (inventoryAgg [c4In, c4Out, c4Count]) "X101" = 1 ∧
     (getLastContagem (inventoryAgg [c4In, c4Out, c4Count]) "X101").map (·.1) = some 60) := by
  constructor
  · intro m t ht c
    refine ⟨?_, ?_, ?_⟩
    · rw [getEntries_invStep]
      simp [entriesDelta, ht]
    · rw [getExits_invStep]
      simp [exitsDelta, ht]
    · rw [getBalance_invStep]
      simp [balanceDelta, ht]
  · refine ⟨by decide, by decide, by decide⟩

/-- C4 witness: the frame clause applied to the empty state and the concrete
COUNT record. -/
theorem spec_C4_witness :
    getBalance (invStep [] c4Count) "X101" = getBalance [] "X101" :=
  (spec_C4_count_frame.1 [] c4Count rfl "X101").2.2

/-- C5: the per-item threshold is sticky. In both aggregations, once the
stored entry for a code exists, a later record whose `min_stock` is absent or
zero leaves the stored threshold exactly unchanged; in the `InventoryList`
fold a record with a non-positive `min_stock` can never clear a positive
stored threshold to zero, and in the `App.tsx` fold such a record leaves the
threshold exactly unchanged. The spec's scenario
`[minStock 5, minStock undefined]` ends with threshold 5 in both folds. -/
theorem spec_C5_sticky_min_stock :
    (∀ (m : List (String × InvEntry)) (t : Transaction) (c : String) (e : InvEntry),
      lookupCode c m = some e → 0 < e.min_stock →
      (t.min_stock = none ∨ ∃ q, t.min_stock = some q ∧ q ≤ 0) →
      ∃ e', lookupCode c (invStep m t) = some e' ∧ e'.min_stock ≠ 0 ∧
        ((t.min_stock = none ∨ t.min_stock = some 0) → e'.min_stock = e.min_stock)) ∧
    (∀ (m : List (String × StockEntry)) (t : Transaction) (c : String) (e : StockEntry),
      lookupCode c m = some e →
      (t.min_stock = none ∨ ∃ q, t.min_stock = some q ∧ q ≤ 0) →
      ∃ e', lookupCode c (stockStep m t) = some e' ∧ e'.min_stock = e.min_stock) ∧
    ((lookupCode "A" (inventoryAgg [c5First, c5Second])).map (·.min_stock) = some 5 ∧
     (lookupCode "A" (stockByCode [c5First, c5Second])).map (·.min_stock) = some 5) := by
  refine ⟨?_, ?_, by decide, by decide⟩
  · intro m t c e he hpos hnp
    rw [lookupCode_invStep]
    by_cases hc : t.code = c
    · refine ⟨applyTx t e, by simp [hc, he], ?_, ?_⟩
      · rw [applyTx_min_stock]
        rcases hnp with h | ⟨q, hq, hq0⟩
        · simp [truthyNum, h]
          omega
        · rcases eq_or_lt_of_le hq0 with h0 | hlt
          · simp [truthyNum, hq, h0.symm] at *
            omega
          · by_cases hr : e.lastDate < t.timestamp
            · simp [truthyNum, hq, hr, Int.ne_of_lt hlt, orZero]
            · simp [hr]
              omega
      · intro hz
        rw [applyTx_min_stock]
        rcases hz with h | h <;> simp [truthyNum, h]
    · exact ⟨e, by simp [hc, he], by omega, fun _ => rfl⟩
  · intro m t c e he hnp
    rw [lookupCode_stockStep]
    by_cases hc : t.code = c
    · refine ⟨applyStock t e, by simp [hc, he], ?_⟩
      rw [applyStock_min_stock]
      rcases hnp with h | ⟨q, hq, hq0⟩
      · simp [minStockPositive, h]
      · simp [minStockPositive, hq]
        omega
    · exact ⟨e, by simp [hc, he], rfl⟩

/-- C5 witness: the `InventoryList` clause applied to a concrete stored entry
with threshold 5 and the concrete record lacking `min_stock`, and the
`App.tsx` clause likewise. -/
theorem spec_C5_witness :
    ∃ e', lookupCode "A" (invStep [("A", c5Entry)] c5Second) = some e' ∧
      e'.min_stock ≠ 0 ∧
      ((c5Second.min_stock = none ∨ c5Second.min_stock = some 0) →
        e'.min_stock = c5Entry.min_stock) :=
  spec_C5_sticky_min_stock.1 [("A", c5Entry)] c5Second "A" c5Entry rfl
    (by decide) (Or.inl rfl)

/-- C6: evaluation at the failing input. `c6Late` has the greatest
`createdAt`, yet when the two same-day records are processed newest-first
(the order the app stores them in) the displayed name is `c6Early`'s, and the
result flips when the processing order flips: the recency test of
`InventoryList.tsx` compares each record's `createdAt` against the parsed
user-assigned `lastDate` of the stored entry, not against the stored record's
`createdAt`. -/
theorem spec_C6_failing_input :
    getName (inventoryAgg [c6Late, c6Early]) "A" = some "N1" ∧
    getName (inventoryAgg [c6Early, c6Late]) "A" = some "N2" ∧
    c6Early.timestamp < c6Late.timestamp := by
  refine ⟨by decide, by decide, by decide⟩

/-- C7, counterexample: with today = 0 and the 7-day threshold −7, a future-
dated entry movement (`date = 8`, outside `[today − 7, today]`) is counted by
the code's windowed statistic, so the windowed stats do not count exactly the
movements whose date lies in `[today − 7, today]`. -/
theorem spec_C7_counterexample :
    (stats [c7Future] (some (-7))).entriesToday = 1 ∧
    claimedWindowEntries [c7Future] 0 7 = 0 ∧
    (stats [c7Future] (some (-7))).entriesToday ≠ claimedWindowEntries [c7Future] 0 7 := by
  refine ⟨by decide, by decide, by decide⟩

/-- C7, amended: choosing a day window versus ALL changes only the windowed
movement statistics, and those count exactly the movements whose date is on
or after the threshold (today − N days) with no upper bound, so future-dated
movements are included; every per-code balance, the criticalItems count and
the in-stock count are identical under any window and under ALL. -/
theorem spec_C7_amended (l : List Transaction) (thr : Int) :
    (stats l (some thr)).entriesToday =
      l.countP (fun t => decide (thr ≤ t.date) &&
        (decide (t.type = MovementType.ENTRADA) && operationAffectsStock t.category_id)) ∧
    (stats l (some thr)).exitsToday =
      l.countP (fun t => decide (thr ≤ t.date) &&
        (decide (t.type = MovementType.SAIDA) && operationAffectsStock t.category_id)) ∧
    (stats l (some thr)).totalTransactions = l.countP (fun t => decide (thr ≤ t.date)) ∧
    (stats l (some thr)).criticalItems = (stats l none).criticalItems ∧
    (stats l (some thr)).totalStockCount = (stats l none).totalStockCount := by
  refine ⟨?_, ?_, ?_, rfl, rfl⟩
  · show (l.filter (fun t => decide (thr ≤ t.date))).countP _ = _
    rw [List.countP_filter]
    congr 1
    funext t
    cases ht : t.type <;> by_cases hd : thr ≤ t.date <;>
      simp [ht, hd, Bool.and_comm]
  · show (l.filter (fun t => decide (thr ≤ t.date))).countP _ = _
    rw [List.countP_filter]
    congr 1
    funext t
    cases ht : t.type <;> by_cases hd : thr ≤ t.date <;>
      simp [ht, hd, Bool.and_comm]
  · show (l.filter (fun t => decide (thr ≤ t.date))).length = _
    exact (List.countP_eq_length_filter (fun t => decide (thr ≤ t.date)) l).symm

theorem jsAbs_nonneg (v : Int) : 0 ≤ jsAbs v := by
  unfold jsAbs
  by_cases h : v < 0 <;> simp [h] <;> omega

/-- C8: every import row whose resolved code equals the template sentinel
`SKU-001` after case normalization is rejected — no record is emitted for it
— and reconciling the row written by `downloadTemplate` yields zero accepted
records. -/
theorem spec_C8_sentinel_rejected :
    (∀ (parse : String → Option Int) (today : Int) (newId : String) (now : Int)
       (row : Row) (c : Cell),
      probe row codeKeys = some c → jsToUpper c.asString = "SKU-001" →
      processRow parse today newId now row = none) ∧
    (∀ (parse : String → Option Int) (today : Int) (newId : String) (now : Int),
      importRows parse today newId now [templateRow] = []) := by
  have main : ∀ (parse : String → Option Int) (today : Int) (newId : String) (now : Int)
      (row : Row) (c : Cell),
      probe row codeKeys = some c → jsToUpper c.asString = "SKU-001" →
      processRow parse today newId now row = none := by
    intro parse today newId now row c hc hup
    unfold processRow
    rw [hc]
    cases hn : probe row nameKeys <;> simp [hn, hup]
  refine ⟨main, ?_⟩
  intro parse today newId now
  have h0 : processRow parse today newId now templateRow = none :=
    main parse today newId now templateRow (.str "SKU-001") (by decide) (by decide)
  simp [importRows, h0]

/-- C8 witness: the rejection clause applied to the concrete row whose
`Código` cell is the lower-case sentinel `sku-001`. -/
theorem spec_C8_witness :
    processRow (fun _ => none) 0 "fresh" 9 rowLower = none :=
  spec_C8_sentinel_rejected.1 (fun _ => none) 0 "fresh" 9 rowLower
    (.str "sku-001") (by decide) (by decide)

/-- C9: quantity resolution in movement import is total and lenient — for
every row with a resolvable code and name that is not the sentinel, the row
is accepted, and its quantity is the absolute value of the coerced number
when the cell is numeric and 0 when the coercion fails (`NaN`); the emitted
quantity is never negative and a bad quantity never rejects the row. -/
theorem spec_C9_quantity_lenient (parse : String → Option Int) (today : Int)
    (newId : String) (now : Int) (row : Row) (c n : Cell)
    (hc : probe row codeKeys = some c) (hn : probe row nameKeys = some n)
    (hs : jsToUpper c.asString ≠ "SKU-001") :
    ∃ tx, processRow parse today newId now row = some tx ∧
      tx.quantity =
        (match jsNumber ((probe row qtyKeys).getD (.num 0)) with
         | some v => jsAbs v
         | none => 0) ∧
      0 ≤ tx.quantity := by
  unfold processRow
  rw [hc, hn]
  simp only [if_neg hs]
  refine ⟨_, rfl, ?_, ?_⟩
  · show coerceQty ((probe row qtyKeys).getD (.num 0)) = _
    unfold coerceQty
    cases jsNumber ((probe row qtyKeys).getD (.num 0)) <;> rfl
  · show 0 ≤ coerceQty ((probe row qtyKeys).getD (.num 0))
    unfold coerceQty
    cases jsNumber ((probe row qtyKeys).getD (.num 0)) with
    | none => exact le_refl 0
    | some v => exact jsAbs_nonneg v

/-- C9 witness: the leniency clause applied to the concrete row whose
quantity cell is the non-numeric string `abc` — the row is still accepted and
its quantity is 0. -/
theorem spec_C9_witness :
    ∃ tx, processRow (fun _ => none) 0 "fresh" 9 rowBadQty = some tx ∧
      tx.quantity = 0 := by
  obtain ⟨tx, h1, h2, _⟩ :=
    spec_C9_quantity_lenient (fun _ => none) 0 "fresh" 9 rowBadQty
      (.str "a1") (.str "X") (by decide) (by decide) (by decide)
  exact ⟨tx, h1, h2.trans (by decide)⟩

/-- C10 (implicit): aggregation produces exactly one entry per distinct code
appearing in the input — the key list is duplicate-free and holds exactly the
codes occurring in the records — and a code that appears only in COUNT
records still obtains an aggregate entry, with
`balance = totalIn = totalOut = 0`. -/
theorem spec_C10_entry_per_code (l : List Transaction) :
    (keysOf (inventoryAgg l)).Nodup ∧
    (∀ c : String, c ∈ keysOf (inventoryAgg l) ↔ c ∈ l.map (·.code)) ∧
    (∀ c : String, c ∈ l.map (·.code) →
      (∀ t ∈ l, t.code = c → t.category_id = some 2) →
      ∃ e, lookupCode c (inventoryAgg l) = some e ∧
        e.entries = 0 ∧ e.exits = 0 ∧ e.balance = 0) := by
  have hmem : ∀ c : String, c ∈ keysOf (inventoryAgg l) ↔ c ∈ l.map (·.code) := by
    intro c
    unfold inventoryAgg
    rw [mem_keysOf_foldl]
    simp [keysOf]
  refine ⟨?_, hmem, ?_⟩
  · exact nodup_keysOf_foldl l [] (by simp [keysOf])
  · intro c hcm hall
    have hsome : (lookupCode c (inventoryAgg l)).isSome := by
      rw [lookupCode_isSome_iff]
      exact (hmem c).mpr hcm
    cases hk : lookupCode c (inventoryAgg l) with
    | none => rw [hk] at hsome; simp at hsome
    | some e =>
      have hent : getEntries (inventoryAgg l) c = 0 := by
        rw [getEntries_inventoryAgg]
        apply List.sum_eq_zero
        intro x hx
        obtain ⟨t, ht, rfl⟩ := List.mem_map.mp hx
        unfold entriesDelta
        by_cases hcc : t.code = c
        · simp [hcc, hall t ht hcc]
        · simp [hcc]
      have hex : getExits (inventoryAgg l) c = 0 := by
        rw [getExits_inventoryAgg]
        apply List.sum_eq_zero
        intro x hx
        obtain ⟨t, ht, rfl⟩ := List.mem_map.mp hx
        unfold exitsDelta
        by_cases hcc : t.code = c
        · simp [hcc, hall t ht hcc]
        · simp [hcc]
      have hbal : getBalance (inventoryAgg l) c = 0 := by
        rw [getBalance_inventoryAgg, balanceOf_eq]
        rw [getEntries_inventoryAgg] at hent
        rw [getExits_inventoryAgg] at hex
        omega
      rw [getEntries, hk] at hent
      rw [getExits, hk] at hex
      rw [getBalance, hk] at hbal
      exact ⟨e, rfl, by simpa using hent, by simpa using hex, by simpa using hbal⟩

/-- C10 witness: applied to the one-record list whose only record for code
`C1` is a COUNT record. -/
theorem spec_C10_witness :
    ∃ e, lookupCode "C1" (inventoryAgg [c10CountOnly]) = some e ∧
      e.entries = 0 ∧ e.exits = 0 ∧ e.balance = 0 :=
  (spec_C10_entry_per_code [c10CountOnly]).2.2 "C1" (by decide) (by decide)
